import Mathlib

/-!
Verification of the plugin-facing config API of the build engine
(`src/packages/core/core/src/public/Config.js`), as a shallow embedding.

JavaScript values appearing in configs and package descriptors are modelled
by `JSValue`; JS truthiness by `JSValue.truthy`.  The mutable internal
`Config` record is `Config`, and each public method of `PublicConfig`
becomes a function from (filesystem, state) to a `CallResult` collecting
the returned value, the new state, and the trace of `loadConfig`
invocations (so that "without reading file X" is statable).
-/

/-- A JSON-like JavaScript value (configs, package descriptors). -/
inductive JSValue where
  | null : JSValue
  | bool (b : Bool) : JSValue
  | num (n : Int) : JSValue
  | str (s : String) : JSValue
  | arr (xs : List JSValue) : JSValue
  | obj (fields : List (String × JSValue)) : JSValue

/-- JS truthiness of a value (`undefined` is represented at the `Option`
layer by `none`, so it never reaches this function). -/
def JSValue.truthy : JSValue → Bool
  | .null => false
  | .bool b => b
  | .num n => n != 0
  | .str s => s != ""
  | .arr _ => true
  | .obj _ => true

/-- JS property read `v[k]` for a string key: defined on objects, yielding
the first field with that key; `undefined` (`none`) otherwise. -/
def JSValue.getKey : JSValue → String → Option JSValue
  | .obj fields, k => (fields.find? (fun f => f.1 = k)).map (fun f => f.2)
  | _, _ => none

/-- JS `String.prototype.endsWith`: `suffix` is a suffix of `s`. -/
def strEndsWith (s suffix : String) : Bool :=
  List.isSuffixOf suffix.data s.data

/-- The in-memory filesystem consulted by `loadConfig`: a finite map from
absolute file paths to their parsed contents. -/
def FS : Type := List (String × JSValue)

/-- Content of the file at path `p`, when it exists. -/
def lookupFS (fs : FS) (p : String) : Option JSValue :=
  (fs.find? (fun e => e.1 = p)).map (fun e => e.2)

/-- Split a list of characters at `/`. -/
def splitSlashAux : List Char → List Char → List (List Char)
  | [], acc => [acc.reverse]
  | c :: rest, acc =>
      if c = '/' then acc.reverse :: splitSlashAux rest []
      else splitSlashAux rest (c :: acc)

/-- The non-empty `/`-separated segments of a path string. -/
def pathSegments (p : String) : List String :=
  ((splitSlashAux p.data []).filter (fun cs => cs ≠ [])).map (fun cs => String.mk cs)

/-- Rebuild an absolute path from segments. -/
def joinSegs (segs : List String) : String :=
  "/" ++ String.intercalate "/" segs

/-- The path of file `name` inside directory `dir` (given as segments). -/
def fileInDir (dir : List String) (name : String) : String :=
  joinSegs (dir ++ [name])

/-- The chain of directories walked upward from `searchPath`: its own
directory first, then each parent up to the root. -/
def dirsUpward (searchPath : String) : List (List String) :=
  let dir := (pathSegments searchPath).dropLast
  (List.range (dir.length + 1)).map (fun k => dir.take (dir.length - k))

/-- Modelled from the spec: `loadConfig` from the utils package is not under
`src/`; per the spec it "searches upward from the current asset's path for
the first matching file among `candidateFilePaths`".  In each directory,
walking upward, the candidates are tried in order; the first existing file
is loaded and returned together with its path (`conf.files[0].filePath`);
`none` models the JS `null` result when no candidate matches. -/
def loadConfig (fs : FS) (searchPath : String) (filePaths : List String) :
    Option (String × JSValue) :=
  (dirsUpward searchPath).findSome? (fun d =>
    filePaths.findSome? (fun name =>
      (lookupFS fs (fileInDir d name)).map (fun v => (fileInDir d name, v))))

/-- The internal `Config` record (`src/packages/core/core/src/types`),
restricted to the fields `public/Config.js` touches.  `Option` encodes
fields that may still be `undefined`/unset; `includedFiles` is a JS `Set`
(insertion-ordered, duplicate-free list) and `devDeps` a JS `Map`
(insertion-ordered association list). -/
structure Config where
  env : Nat
  isSource : Bool
  searchPath : String
  result : Option JSValue
  resultHash : Option String
  resolvedPath : Option String
  includedFiles : List String
  devDeps : List (String × Option String)
  watchGlob : Option String
  pkg : Option JSValue
  shouldRehydrate : Bool
  shouldReload : Bool
  shouldInvalidateOnStartup : Bool

/-- JS `Set.prototype.add`: append `x` unless already present. -/
def setAdd (xs : List String) (x : String) : List String :=
  if x ∈ xs then xs else xs ++ [x]

/-- JS `Map.prototype.set`: update the entry for `k` in place, else append. -/
def mapSet (m : List (String × Option String)) (k : String) (v : Option String) :
    List (String × Option String) :=
  match m with
  | [] => [(k, v)]
  | e :: rest => if e.1 = k then (k, v) :: rest else e :: mapSet rest k v

/-- JS `Map.prototype.get`: the value stored under `k`, if any. -/
def mapGet (m : List (String × Option String)) (k : String) : Option (Option String) :=
  (m.find? (fun e => e.1 = k)).map (fun e => e.2)

namespace PublicConfig

/-- `setResolvedPath(filePath)`. -/
def setResolvedPath (s : Config) (filePath : String) : Config :=
  { s with resolvedPath := some filePath }

/-- `setResult(result)`. -/
def setResult (s : Config) (result : JSValue) : Config :=
  { s with result := some result }

/-- `setResultHash(resultHash)`. -/
def setResultHash (s : Config) (resultHash : String) : Config :=
  { s with resultHash := some resultHash }

/-- `addIncludedFile(filePath)`. -/
def addIncludedFile (s : Config) (filePath : String) : Config :=
  { s with includedFiles := setAdd s.includedFiles filePath }

/-- `addDevDependency(name, version?)`. -/
def addDevDependency (s : Config) (name : String) (version : Option String) : Config :=
  { s with devDeps := mapSet s.devDeps name version }

/-- `setWatchGlob(glob)`. -/
def setWatchGlob (s : Config) (glob : String) : Config :=
  { s with watchGlob := some glob }

/-- `shouldRehydrate()`. -/
def shouldRehydrate (s : Config) : Config :=
  { s with shouldRehydrate := true }

/-- `shouldReload()`. -/
def shouldReload (s : Config) : Config :=
  { s with shouldReload := true }

/-- `shouldInvalidateOnStartup()`. -/
def shouldInvalidateOnStartup (s : Config) : Config :=
  { s with shouldInvalidateOnStartup := true }

end PublicConfig

/-- The `options` record of `getConfig`/`getConfigFrom`. -/
structure GetConfigOptions where
  packageKey : Option String := none
  parse : Option Bool := none
  exclude : Option Bool := none

/-- `let packageKey = options && options.packageKey` (the whole `options`
argument is nullable). -/
def packageKeyOf (opts : Option GetConfigOptions) : Option String :=
  match opts with
  | none => none
  | some o => o.packageKey

/-- Truthiness of `options && options.exclude`. -/
def excludeOf (opts : Option GetConfigOptions) : Bool :=
  match opts with
  | none => false
  | some o => o.exclude.getD false

/-- The outcome of a public config-reading call: the returned value (`none`
for JS `null`), the state of the internal `Config` afterwards, and the
trace of `loadConfig` invocations `(searchPath, filePaths)` made during the
call. -/
structure CallResult where
  ret : Option JSValue
  state : Config
  calls : List (String × List String)

/-- The recording step of `getConfigFrom`: the found file becomes the
`resolvedPath` when none is set yet or the current one ends with
`'package.json'`; otherwise it is added to `includedFiles`. -/
def recordSource (s : Config) (filePath : String) : Config :=
  match s.resolvedPath with
  | none => PublicConfig.setResolvedPath s filePath
  | some rp =>
      if strEndsWith rp "package.json" then PublicConfig.setResolvedPath s filePath
      else PublicConfig.addIncludedFile s filePath

/-- The part of `getConfigFrom` after the `packageKey` block: run
`loadConfig`; on `null` return `null`; otherwise record the found file
(unless `exclude` is truthy) and return the parsed config. -/
def loadAndRecord (fs : FS) (s : Config) (searchPath : String)
    (filePaths : List String) (exclude : Bool) : CallResult :=
  match loadConfig fs searchPath filePaths with
  | none => ⟨none, s, [(searchPath, filePaths)]⟩
  | some fv =>
      ⟨some fv.2, if exclude then s else recordSource s fv.1, [(searchPath, filePaths)]⟩

namespace PublicConfig

/-- `getPackage()`: if `this.#config.pkg` is truthy return it; otherwise run
`this.getConfig(['package.json'])` (which, having no options, is exactly
`loadAndRecord` rooted at the asset's search path), store its result in
`pkg`, and return it. -/
def getPackage (fs : FS) (s : Config) : CallResult :=
  let hit : Bool :=
    match s.pkg with
    | some v => v.truthy
    | none => false
  if hit then ⟨s.pkg, s, []⟩
  else
    let r := loadAndRecord fs s s.searchPath ["package.json"] false
    ⟨r.ret, { r.state with pkg := some (r.ret.getD JSValue.null) }, r.calls⟩

/-- The `packageKey` short-circuit test `pkg && pkg[packageKey]`: the
sub-value at `k` when both the package descriptor and that sub-value are
truthy. -/
def pkgSubValue (ret : Option JSValue) (k : String) : Option JSValue :=
  match ret with
  | none => none
  | some pkg =>
      if pkg.truthy then
        match pkg.getKey k with
        | some v => if v.truthy then some v else none
        | none => none
      else none

/-- `getConfigFrom(searchPath, filePaths, options)`. -/
def getConfigFrom (fs : FS) (s : Config) (searchPath : String)
    (filePaths : List String) (opts : Option GetConfigOptions) : CallResult :=
  match packageKeyOf opts with
  | none => loadAndRecord fs s searchPath filePaths (excludeOf opts)
  | some k =>
      let pr := getPackage fs s
      match pkgSubValue pr.ret k with
      | some v => ⟨some v, pr.state, pr.calls⟩
      | none =>
          let r := loadAndRecord fs pr.state searchPath filePaths (excludeOf opts)
          ⟨r.ret, r.state, pr.calls ++ r.calls⟩

/-- `getConfig(filePaths, options)`. -/
def getConfig (fs : FS) (s : Config) (filePaths : List String)
    (opts : Option GetConfigOptions) : CallResult :=
  getConfigFrom fs s s.searchPath filePaths opts

end PublicConfig

def fieldsOtherThanResolvedPath (s : Config) :=
  (s.env, s.isSource, s.searchPath, s.result, s.resultHash, s.includedFiles,
   s.devDeps, s.watchGlob, s.pkg, s.shouldRehydrate, s.shouldReload,
   s.shouldInvalidateOnStartup)

def fieldsOtherThanResult (s : Config) :=
  (s.env, s.isSource, s.searchPath, s.resultHash, s.resolvedPath, s.includedFiles,
   s.devDeps, s.watchGlob, s.pkg, s.shouldRehydrate, s.shouldReload,
   s.shouldInvalidateOnStartup)

def fieldsOtherThanResultHash (s : Config) :=
  (s.env, s.isSource, s.searchPath, s.result, s.resolvedPath, s.includedFiles,
   s.devDeps, s.watchGlob, s.pkg, s.shouldRehydrate, s.shouldReload,
   s.shouldInvalidateOnStartup)

def fieldsOtherThanIncludedFiles (s : Config) :=
  (s.env, s.isSource, s.searchPath, s.result, s.resultHash, s.resolvedPath,
   s.devDeps, s.watchGlob, s.pkg, s.shouldRehydrate, s.shouldReload,
   s.shouldInvalidateOnStartup)

def fieldsOtherThanDevDeps (s : Config) :=
  (s.env, s.isSource, s.searchPath, s.result, s.resultHash, s.resolvedPath,
   s.includedFiles, s.watchGlob, s.pkg, s.shouldRehydrate, s.shouldReload,
   s.shouldInvalidateOnStartup)

def fieldsOtherThanWatchGlob (s : Config) :=
  (s.env, s.isSource, s.searchPath, s.result, s.resultHash, s.resolvedPath,
   s.includedFiles, s.devDeps, s.pkg, s.shouldRehydrate, s.shouldReload,
   s.shouldInvalidateOnStartup)

/-- The global `internalConfigToConfig` table: a `DefaultWeakMap` from
`ParcelOptions` to a `WeakMap` from internal `Config` to its public wrapper.
Object identities are modelled by numeric ids; the two-level weak map by one
table keyed by the `(options, config)` identity pair, plus a counter
allocating fresh wrapper identities. -/
structure WrapperWorld where
  table : List ((Nat × Nat) × Nat)
  next : Nat

/-- `new PublicConfig(config, options)`: when the table already holds a
wrapper for this `(options, config)` pair the constructor returns that very
object; otherwise a fresh wrapper is allocated and recorded. -/
def mkPublicConfig (w : WrapperWorld) (configId optionsId : Nat) :
    Nat × WrapperWorld :=
  match w.table.find? (fun e => e.1 = (optionsId, configId)) with
  | some e => (e.2, w)
  | none => (w.next, ⟨w.table ++ [((optionsId, configId), w.next)], w.next + 1⟩)

/-- One invocation of a state-affecting operation of the public `Config`
interface (the getters return values without mutating and are omitted). -/
inductive Op where
  | setResolvedPath (p : String)
  | setResult (v : JSValue)
  | setResultHash (h : String)
  | addIncludedFile (p : String)
  | addDevDependency (n : String) (v : Option String)
  | setWatchGlob (g : String)
  | shouldRehydrate
  | shouldReload
  | shouldInvalidateOnStartup
  | getPackage (fs : FS)
  | getConfig (fs : FS) (filePaths : List String) (opts : Option GetConfigOptions)
  | getConfigFrom (fs : FS) (sp : String) (filePaths : List String)
      (opts : Option GetConfigOptions)

/-- The effect of one public operation on the internal `Config` state. -/
def applyOp (op : Op) (s : Config) : Config :=
  match op with
  | .setResolvedPath p => PublicConfig.setResolvedPath s p
  | .setResult v => PublicConfig.setResult s v
  | .setResultHash h => PublicConfig.setResultHash s h
  | .addIncludedFile p => PublicConfig.addIncludedFile s p
  | .addDevDependency n v => PublicConfig.addDevDependency s n v
  | .setWatchGlob g => PublicConfig.setWatchGlob s g
  | .shouldRehydrate => PublicConfig.shouldRehydrate s
  | .shouldReload => PublicConfig.shouldReload s
  | .shouldInvalidateOnStartup => PublicConfig.shouldInvalidateOnStartup s
  | .getPackage fs => (PublicConfig.getPackage fs s).state
  | .getConfig fs filePaths opts => (PublicConfig.getConfig fs s filePaths opts).state
  | .getConfigFrom fs sp filePaths opts =>
      (PublicConfig.getConfigFrom fs s sp filePaths opts).state

/-- The triple of one-way flags of a Config Result. -/
def flagsOf (s : Config) : Bool × Bool × Bool :=
  (s.shouldRehydrate, s.shouldReload, s.shouldInvalidateOnStartup)

/-- A concrete initial Config Result for an asset at `/a/index.js`. -/
def cfg0 : Config :=
  { env := 0, isSource := true, searchPath := "/a/index.js",
    result := none, resultHash := none, resolvedPath := none,
    includedFiles := [], devDeps := [], watchGlob := none, pkg := none,
    shouldRehydrate := false, shouldReload := false,
    shouldInvalidateOnStartup := false }

def fsC1 : FS :=
  [("/a/package.json", JSValue.obj [("foo", JSValue.bool false)]),
   ("/a/some.config.js", JSValue.str "cfg")]

/-- The Config Result of the C1 witness: the package descriptor
`{"foo": {"x": 1}}` is already cached in `pkg`. -/
def cfgPkgCached : Config :=
  { cfg0 with pkg := some (JSValue.obj [("foo", JSValue.obj [("x", JSValue.num 1)])]) }

/-- The source's test guarding `setResolvedPath` in the recording step:
`this.#config.resolvedPath == null || this.#config.resolvedPath.endsWith('package.json')`. -/
def primaryCond (s : Config) : Bool :=
  match s.resolvedPath with
  | none => true
  | some rp => strEndsWith rp "package.json"

/-- The Config Result state at the moment `getConfigFrom` records the found
file: the incoming state when no `packageKey` was supplied, otherwise the
state left by the `getPackage` fetch. -/
def midState (fs : FS) (s : Config) (opts : Option GetConfigOptions) : Config :=
  match packageKeyOf opts with
  | none => s
  | some _ => (PublicConfig.getPackage fs s).state

def fsC2 : FS :=
  [("/a/mypackage.json", JSValue.str "first"),
   ("/a/x.config.js", JSValue.str "second")]

def fsC2w : FS := [("/a/.foorc", JSValue.num 5)]

def fsC3 : FS := [("/a/package.json", JSValue.obj [("name", JSValue.str "a")])]

def fsC7 : FS := [("/a/package.json", JSValue.obj [("bar", JSValue.num 1)])]

theorem setAdd_idem (xs : List String) (x : String) :
    setAdd (setAdd xs x) x = setAdd xs x := by
  by_cases h : x ∈ xs
  · simp [setAdd, h]
  · simp [setAdd, h]

theorem mapGet_mapSet (m : List (String × Option String)) (k : String)
    (v : Option String) (j : String) :
    mapGet (mapSet m k v) j = if j = k then some v else mapGet m j := by
  induction m with
  | nil =>
      by_cases h : j = k
      · subst h; simp [mapSet, mapGet]
      · simp [mapSet, mapGet, Ne.symm h, h]
  | cons e rest ih =>
      obtain ⟨a, b⟩ := e
      by_cases hek : a = k
      · subst hek
        by_cases hj : j = a
        · subst hj; simp [mapSet, mapGet]
        · simp [mapSet, mapGet, Ne.symm hj, hj]
      · by_cases hj : j = a
        · subst hj
          simp [mapSet, mapGet, hek]
        · simp only [mapSet, mapGet, hek, if_false, ite_false]
          simp only [mapGet] at ih
          simp [List.find?_cons_of_neg, Ne.symm hj, ih]

/-- C4: `getConfig(filePaths, options)` is exactly `getConfigFrom` rooted at
the asset's own `searchPath`: same returned value, same state mutation, same
`loadConfig` trace. -/
theorem getConfig_eq_getConfigFrom_searchPath (fs : FS) (s : Config)
    (filePaths : List String) (opts : Option GetConfigOptions) :
    PublicConfig.getConfig fs s filePaths opts =
      PublicConfig.getConfigFrom fs s s.searchPath filePaths opts := rfl

/-- C8: each mutator touches only its own field: the tuple of all other
`Config` fields is unchanged, and the touched field takes the set value. -/
theorem mutators_touch_only_their_field (s : Config) (p q : String) (v : JSValue)
    (hsh : String) (n : String) (ver : Option String) (g : String) :
    (fieldsOtherThanResolvedPath (PublicConfig.setResolvedPath s p) =
        fieldsOtherThanResolvedPath s ∧
      (PublicConfig.setResolvedPath s p).resolvedPath = some p) ∧
    (fieldsOtherThanResult (PublicConfig.setResult s v) = fieldsOtherThanResult s ∧
      (PublicConfig.setResult s v).result = some v) ∧
    (fieldsOtherThanResultHash (PublicConfig.setResultHash s hsh) =
        fieldsOtherThanResultHash s ∧
      (PublicConfig.setResultHash s hsh).resultHash = some hsh) ∧
    (fieldsOtherThanIncludedFiles (PublicConfig.addIncludedFile s q) =
        fieldsOtherThanIncludedFiles s ∧
      (PublicConfig.addIncludedFile s q).includedFiles = setAdd s.includedFiles q) ∧
    (fieldsOtherThanDevDeps (PublicConfig.addDevDependency s n ver) =
        fieldsOtherThanDevDeps s ∧
      (PublicConfig.addDevDependency s n ver).devDeps = mapSet s.devDeps n ver) ∧
    (fieldsOtherThanWatchGlob (PublicConfig.setWatchGlob s g) =
        fieldsOtherThanWatchGlob s ∧
      (PublicConfig.setWatchGlob s g).watchGlob = some g) :=
  ⟨⟨rfl, rfl⟩, ⟨rfl, rfl⟩, ⟨rfl, rfl⟩, ⟨rfl, rfl⟩, ⟨rfl, rfl⟩, ⟨rfl, rfl⟩⟩

/-- C9: `addIncludedFile` is idempotent: `includedFiles` is a set, so adding
the same path twice leaves the Config Result exactly as adding it once. -/
theorem addIncludedFile_idempotent (s : Config) (p : String) :
    PublicConfig.addIncludedFile (PublicConfig.addIncludedFile s p) p =
      PublicConfig.addIncludedFile s p := by
  simp [PublicConfig.addIncludedFile, setAdd_idem]

/-- C10: `addDevDependency` is last-write-wins per package name: after
setting `n ↦ v1` then `n ↦ v2`, `devDeps` maps `n` to `v2` and every other
name to what it mapped to before. -/
theorem addDevDependency_last_write_wins (s : Config) (n : String)
    (v1 v2 : Option String) :
    ∀ j, mapGet (PublicConfig.addDevDependency
        (PublicConfig.addDevDependency s n v1) n v2).devDeps j =
      if j = n then some v2 else mapGet s.devDeps j := by
  intro j
  by_cases h : j = n <;>
    simp [PublicConfig.addDevDependency, mapGet_mapSet, h]

/-- C6: the plugin-facing wrapper is memoized by identity: constructing a
`PublicConfig` a second time for the same `(options, config)` pair returns
the wrapper produced the first time, and leaves the memoization table as the
first construction left it. -/
theorem publicConfig_constructor_memoized (w : WrapperWorld)
    (configId optionsId : Nat) :
    mkPublicConfig (mkPublicConfig w configId optionsId).2 configId optionsId =
      ((mkPublicConfig w configId optionsId).1,
       (mkPublicConfig w configId optionsId).2) := by
  cases hf : w.table.find? (fun e => e.1 = (optionsId, configId)) with
  | some e => simp [mkPublicConfig, hf]
  | none => simp [mkPublicConfig, hf, List.find?_append]

theorem flagsOf_recordSource (s : Config) (fp : String) :
    flagsOf (recordSource s fp) = flagsOf s := by
  cases hrp : s.resolvedPath with
  | none => simp [recordSource, hrp, PublicConfig.setResolvedPath, flagsOf]
  | some rp =>
      by_cases h : strEndsWith rp "package.json" = true <;>
        simp [recordSource, hrp, h, PublicConfig.setResolvedPath,
          PublicConfig.addIncludedFile, flagsOf]

theorem flagsOf_loadAndRecord (fs : FS) (s : Config) (sp : String)
    (fps : List String) (ex : Bool) :
    flagsOf (loadAndRecord fs s sp fps ex).state = flagsOf s := by
  cases hl : loadConfig fs sp fps with
  | none => simp [loadAndRecord, hl]
  | some fv => cases ex <;> simp [loadAndRecord, hl, flagsOf_recordSource]

theorem flagsOf_getPackage (fs : FS) (s : Config) :
    flagsOf (PublicConfig.getPackage fs s).state = flagsOf s := by
  unfold PublicConfig.getPackage
  cases hp : s.pkg with
  | none =>
      dsimp only [hp]
      exact flagsOf_loadAndRecord fs s s.searchPath ["package.json"] false
  | some v =>
      dsimp only [hp]
      by_cases ht : v.truthy = true
      · simp only [ht, if_true]
      · simp only [ht, if_false, Bool.false_eq_true]
        exact flagsOf_loadAndRecord fs s s.searchPath ["package.json"] false

theorem flagsOf_getConfigFrom (fs : FS) (s : Config) (sp : String)
    (fps : List String) (opts : Option GetConfigOptions) :
    flagsOf (PublicConfig.getConfigFrom fs s sp fps opts).state = flagsOf s := by
  unfold PublicConfig.getConfigFrom
  cases hpk : packageKeyOf opts with
  | none => exact flagsOf_loadAndRecord fs s sp fps (excludeOf opts)
  | some k =>
      dsimp only
      split
      · exact flagsOf_getPackage fs s
      · exact (flagsOf_loadAndRecord fs (PublicConfig.getPackage fs s).state sp fps
            (excludeOf opts)).trans (flagsOf_getPackage fs s)

theorem getPackage_state_flag1 (fs : FS) (s : Config) :
    (PublicConfig.getPackage fs s).state.shouldRehydrate = s.shouldRehydrate :=
  congrArg Prod.fst (flagsOf_getPackage fs s)

theorem getPackage_state_flag2 (fs : FS) (s : Config) :
    (PublicConfig.getPackage fs s).state.shouldReload = s.shouldReload :=
  congrArg (fun t => t.2.1) (flagsOf_getPackage fs s)

theorem getPackage_state_flag3 (fs : FS) (s : Config) :
    (PublicConfig.getPackage fs s).state.shouldInvalidateOnStartup =
      s.shouldInvalidateOnStartup :=
  congrArg (fun t => t.2.2) (flagsOf_getPackage fs s)

theorem getConfigFrom_state_flag1 (fs : FS) (s : Config) (sp : String)
    (fps : List String) (opts : Option GetConfigOptions) :
    (PublicConfig.getConfigFrom fs s sp fps opts).state.shouldRehydrate =
      s.shouldRehydrate :=
  congrArg Prod.fst (flagsOf_getConfigFrom fs s sp fps opts)

theorem getConfigFrom_state_flag2 (fs : FS) (s : Config) (sp : String)
    (fps : List String) (opts : Option GetConfigOptions) :
    (PublicConfig.getConfigFrom fs s sp fps opts).state.shouldReload =
      s.shouldReload :=
  congrArg (fun t => t.2.1) (flagsOf_getConfigFrom fs s sp fps opts)

theorem getConfigFrom_state_flag3 (fs : FS) (s : Config) (sp : String)
    (fps : List String) (opts : Option GetConfigOptions) :
    (PublicConfig.getConfigFrom fs s sp fps opts).state.shouldInvalidateOnStartup =
      s.shouldInvalidateOnStartup :=
  congrArg (fun t => t.2.2) (flagsOf_getConfigFrom fs s sp fps opts)

/-- C5: the three flags are one-way: each `should*` call sets its flag to
`true`, and every public operation is monotone in each flag — a flag that is
`true` before the operation is still `true` after it. -/
theorem config_flags_one_way (op : Op) (s : Config) :
    ((PublicConfig.shouldRehydrate s).shouldRehydrate = true ∧
     (PublicConfig.shouldReload s).shouldReload = true ∧
     (PublicConfig.shouldInvalidateOnStartup s).shouldInvalidateOnStartup = true) ∧
    (s.shouldRehydrate = true → (applyOp op s).shouldRehydrate = true) ∧
    (s.shouldReload = true → (applyOp op s).shouldReload = true) ∧
    (s.shouldInvalidateOnStartup = true →
      (applyOp op s).shouldInvalidateOnStartup = true) := by
  refine ⟨⟨rfl, rfl, rfl⟩, ?_, ?_, ?_⟩ <;> intro h <;> cases op <;>
    simp_all [applyOp, PublicConfig.setResolvedPath, PublicConfig.setResult,
      PublicConfig.setResultHash, PublicConfig.addIncludedFile,
      PublicConfig.addDevDependency, PublicConfig.setWatchGlob,
      PublicConfig.shouldRehydrate, PublicConfig.shouldReload,
      PublicConfig.shouldInvalidateOnStartup, PublicConfig.getConfig,
      getPackage_state_flag1, getPackage_state_flag2, getPackage_state_flag3,
      getConfigFrom_state_flag1, getConfigFrom_state_flag2,
      getConfigFrom_state_flag3]

/-- C5 witness: at a concrete state with all three flags already set, a
concrete operation (`setWatchGlob`) leaves all of them `true`, and the
setters set them. -/
theorem config_flags_one_way_witness :
    ((PublicConfig.shouldRehydrate
        { cfg0 with shouldRehydrate := true, shouldReload := true,
                    shouldInvalidateOnStartup := true }).shouldRehydrate = true ∧
     (PublicConfig.shouldReload
        { cfg0 with shouldRehydrate := true, shouldReload := true,
                    shouldInvalidateOnStartup := true }).shouldReload = true ∧
     (PublicConfig.shouldInvalidateOnStartup
        { cfg0 with shouldRehydrate := true, shouldReload := true,
                    shouldInvalidateOnStartup := true }).shouldInvalidateOnStartup
        = true) ∧
    (applyOp (Op.setWatchGlob "configs/*.json")
        { cfg0 with shouldRehydrate := true, shouldReload := true,
                    shouldInvalidateOnStartup := true }).shouldRehydrate = true ∧
    (applyOp (Op.setWatchGlob "configs/*.json")
        { cfg0 with shouldRehydrate := true, shouldReload := true,
                    shouldInvalidateOnStartup := true }).shouldReload = true ∧
    (applyOp (Op.setWatchGlob "configs/*.json")
        { cfg0 with shouldRehydrate := true, shouldReload := true,
                    shouldInvalidateOnStartup := true }).shouldInvalidateOnStartup
        = true := by
  have h := config_flags_one_way (Op.setWatchGlob "configs/*.json")
    { cfg0 with shouldRehydrate := true, shouldReload := true,
                shouldInvalidateOnStartup := true }
  exact ⟨h.1, h.2.1 rfl, h.2.2.1 rfl, h.2.2.2 rfl⟩

theorem loadAndRecord_calls (fs : FS) (s : Config) (sp : String)
    (fps : List String) (ex : Bool) :
    (loadAndRecord fs s sp fps ex).calls = [(sp, fps)] := by
  cases hl : loadConfig fs sp fps <;> simp [loadAndRecord, hl]

theorem getPackage_calls (fs : FS) (s : Config) :
    (PublicConfig.getPackage fs s).calls = [] ∨
    (PublicConfig.getPackage fs s).calls = [(s.searchPath, ["package.json"])] := by
  unfold PublicConfig.getPackage
  cases hp : s.pkg with
  | none =>
      dsimp only [hp]
      exact Or.inr (loadAndRecord_calls fs s s.searchPath ["package.json"] false)
  | some v =>
      dsimp only [hp]
      by_cases ht : v.truthy = true
      · exact Or.inl (by simp [ht])
      · simp only [ht, if_false, Bool.false_eq_true]
        exact Or.inr (loadAndRecord_calls fs s s.searchPath ["package.json"] false)

theorem getPackage_state_pkg (fs : FS) (s : Config) :
    (PublicConfig.getPackage fs s).state.pkg =
      some ((PublicConfig.getPackage fs s).ret.getD JSValue.null) := by
  unfold PublicConfig.getPackage
  cases hp : s.pkg with
  | none => simp [hp]
  | some v =>
      dsimp only [hp]
      by_cases ht : v.truthy = true
      · simp [ht, hp]
      · simp [ht]

/-- C1 (amended): when a `packageKey` is supplied and the package descriptor
returned by `getPackage` is truthy with a truthy sub-value at that key, the
call returns that sub-value directly, its only state change and `loadConfig`
trace are those of the `getPackage` fetch itself, and in particular every
`loadConfig` invocation the call makes searches for `package.json`, never
for the candidate `filePaths`. -/
theorem getConfigFrom_packageKey_shortCircuit
    (fs : FS) (s : Config) (sp : String) (filePaths : List String)
    (opts : Option GetConfigOptions) (k : String) (v : JSValue)
    (hk : packageKeyOf opts = some k)
    (hv : PublicConfig.pkgSubValue (PublicConfig.getPackage fs s).ret k = some v) :
    PublicConfig.getConfigFrom fs s sp filePaths opts =
      ⟨some v, (PublicConfig.getPackage fs s).state,
        (PublicConfig.getPackage fs s).calls⟩ ∧
    ∀ c ∈ (PublicConfig.getConfigFrom fs s sp filePaths opts).calls,
      c.2 = ["package.json"] := by
  have heq : PublicConfig.getConfigFrom fs s sp filePaths opts =
      ⟨some v, (PublicConfig.getPackage fs s).state,
        (PublicConfig.getPackage fs s).calls⟩ := by
    unfold PublicConfig.getConfigFrom
    rw [hk]
    dsimp only
    rw [hv]
  refine ⟨heq, ?_⟩
  rw [heq]
  rcases getPackage_calls fs s with h | h <;> rw [h]
  · intro c hc; cases hc
  · intro c hc
    rw [List.mem_singleton] at hc
    subst hc
    rfl

/-- C1 counterexample: the package descriptor exists and has key `"foo"`,
but its sub-value `false` is falsy, so `pkg && pkg[packageKey]` fails: the
call loads the candidate `some.config.js` (second entry of the `loadConfig`
trace) and returns its contents rather than the sub-value. -/
theorem getConfigFrom_packageKey_falsy_counterexample :
    lookupFS fsC1 "/a/package.json" =
      some (JSValue.obj [("foo", JSValue.bool false)]) ∧
    JSValue.getKey (JSValue.obj [("foo", JSValue.bool false)]) "foo" =
      some (JSValue.bool false) ∧
    (PublicConfig.getConfigFrom fsC1 cfg0 "/a/index.js" ["some.config.js"]
      (some { packageKey := some "foo" })).ret = some (JSValue.str "cfg") ∧
    (PublicConfig.getConfigFrom fsC1 cfg0 "/a/index.js" ["some.config.js"]
      (some { packageKey := some "foo" })).calls =
      [("/a/index.js", ["package.json"]), ("/a/index.js", ["some.config.js"])] ∧
    JSValue.str "cfg" ≠ JSValue.bool false :=
  ⟨rfl, rfl, rfl, rfl, fun h => JSValue.noConfusion h⟩

/-- C1 witness: with the package descriptor `{"foo": {"x": 1}}` already
cached, `getConfig(["some.config.js"], {packageKey: "foo"})` returns
`{"x": 1}` with no `loadConfig` invocation at all. -/
theorem getConfigFrom_packageKey_shortCircuit_witness :
    PublicConfig.getConfigFrom [] cfgPkgCached
        "/a/index.js" ["some.config.js"] (some { packageKey := some "foo" }) =
      ⟨some (JSValue.obj [("x", JSValue.num 1)]),
        (PublicConfig.getPackage [] cfgPkgCached).state,
        (PublicConfig.getPackage [] cfgPkgCached).calls⟩ ∧
    ∀ c ∈ (PublicConfig.getConfigFrom [] cfgPkgCached
        "/a/index.js" ["some.config.js"] (some { packageKey := some "foo" })).calls,
      c.2 = ["package.json"] :=
  getConfigFrom_packageKey_shortCircuit [] cfgPkgCached
    "/a/index.js" ["some.config.js"] (some { packageKey := some "foo" })
    "foo" (JSValue.obj [("x", JSValue.num 1)]) rfl rfl

theorem recordSource_resolvedPath (s : Config) (fp : String) :
    (recordSource s fp).resolvedPath =
      (if primaryCond s = true then some fp else s.resolvedPath) := by
  cases hrp : s.resolvedPath with
  | none => simp [recordSource, primaryCond, hrp, PublicConfig.setResolvedPath]
  | some rp =>
      by_cases h : strEndsWith rp "package.json" = true <;>
        simp [recordSource, primaryCond, hrp, h, PublicConfig.setResolvedPath,
          PublicConfig.addIncludedFile]

theorem recordSource_includedFiles (s : Config) (fp : String) :
    (recordSource s fp).includedFiles =
      (if primaryCond s = true then s.includedFiles
       else setAdd s.includedFiles fp) := by
  cases hrp : s.resolvedPath with
  | none => simp [recordSource, primaryCond, hrp, PublicConfig.setResolvedPath]
  | some rp =>
      by_cases h : strEndsWith rp "package.json" = true <;>
        simp [recordSource, primaryCond, hrp, h, PublicConfig.setResolvedPath,
          PublicConfig.addIncludedFile]

/-- C2 (amended): a call that finds a config file and whose options do not
set `exclude` (and whose `packageKey`, if any, did not short-circuit)
returns the file's parsed contents and records the found file: its path
becomes the Config Result's `resolvedPath` when `resolvedPath` is unset or
the current `resolvedPath` ends with the string `'package.json'` (as it does
when a package descriptor was resolved earlier); otherwise the path is added
to `includedFiles`.  The recording is relative to the state after the
`getPackage` fetch that a supplied `packageKey` triggers. -/
theorem getConfigFrom_records_found_file
    (fs : FS) (s : Config) (sp : String) (filePaths : List String)
    (opts : Option GetConfigOptions) (fp : String) (v : JSValue)
    (hmiss : ∀ k, packageKeyOf opts = some k →
      PublicConfig.pkgSubValue (PublicConfig.getPackage fs s).ret k = none)
    (hl : loadConfig fs sp filePaths = some (fp, v))
    (hex : excludeOf opts = false) :
    (PublicConfig.getConfigFrom fs s sp filePaths opts).ret = some v ∧
    (PublicConfig.getConfigFrom fs s sp filePaths opts).state.resolvedPath =
      (if primaryCond (midState fs s opts) = true then some fp
       else (midState fs s opts).resolvedPath) ∧
    (PublicConfig.getConfigFrom fs s sp filePaths opts).state.includedFiles =
      (if primaryCond (midState fs s opts) = true
       then (midState fs s opts).includedFiles
       else setAdd (midState fs s opts).includedFiles fp) := by
  have hlar : ∀ t : Config, loadAndRecord fs t sp filePaths false =
      ⟨some v, recordSource t fp, [(sp, filePaths)]⟩ := by
    intro t; simp [loadAndRecord, hl]
  cases hpk : packageKeyOf opts with
  | none =>
      have hgc : PublicConfig.getConfigFrom fs s sp filePaths opts =
          loadAndRecord fs s sp filePaths (excludeOf opts) := by
        unfold PublicConfig.getConfigFrom
        rw [hpk]
      rw [hgc, hex, hlar s]
      exact ⟨rfl, (recordSource_resolvedPath s fp).trans (by rw [midState, hpk]),
        (recordSource_includedFiles s fp).trans (by rw [midState, hpk])⟩
  | some k =>
      have hv := hmiss k hpk
      have hgc : PublicConfig.getConfigFrom fs s sp filePaths opts =
          ⟨(loadAndRecord fs (PublicConfig.getPackage fs s).state sp filePaths
              (excludeOf opts)).ret,
           (loadAndRecord fs (PublicConfig.getPackage fs s).state sp filePaths
              (excludeOf opts)).state,
           (PublicConfig.getPackage fs s).calls ++
             (loadAndRecord fs (PublicConfig.getPackage fs s).state sp filePaths
               (excludeOf opts)).calls⟩ := by
        unfold PublicConfig.getConfigFrom
        rw [hpk]
        dsimp only
        rw [hv]
      rw [hgc, hex, hlar ((PublicConfig.getPackage fs s).state)]
      refine ⟨rfl, ?_, ?_⟩
      · exact (recordSource_resolvedPath _ fp).trans (by rw [midState, hpk])
      · exact (recordSource_includedFiles _ fp).trans (by rw [midState, hpk])

/-- C2 counterexample: the first call resolves the custom config file
`mypackage.json` as the primary config source (`resolvedPath`).  The second
call finds `x.config.js` — per the claim a secondary file that should be
added to `includedFiles` — but because the current `resolvedPath` merely
*ends with* the string `'package.json'`, the code overwrites `resolvedPath`
with it and leaves `includedFiles` empty. -/
theorem getConfigFrom_secondary_overwrite_counterexample :
    (PublicConfig.getConfigFrom fsC2 cfg0 "/a/index.js"
        ["mypackage.json"] none).state.resolvedPath = some "/a/mypackage.json" ∧
    (PublicConfig.getConfigFrom fsC2
        (PublicConfig.getConfigFrom fsC2 cfg0 "/a/index.js"
          ["mypackage.json"] none).state
        "/a/index.js" ["x.config.js"] none).state.resolvedPath =
      some "/a/x.config.js" ∧
    (PublicConfig.getConfigFrom fsC2
        (PublicConfig.getConfigFrom fsC2 cfg0 "/a/index.js"
          ["mypackage.json"] none).state
        "/a/index.js" ["x.config.js"] none).state.includedFiles = [] :=
  ⟨rfl, rfl, rfl⟩

/-- C2 witness: a first (`resolvedPath` unset) call without options that
finds `/a/.foorc` returns its contents and makes it the `resolvedPath`,
leaving `includedFiles` unchanged. -/
theorem getConfigFrom_records_found_file_witness :
    (PublicConfig.getConfigFrom fsC2w cfg0 "/a/index.js" [".foorc"] none).ret =
      some (JSValue.num 5) ∧
    (PublicConfig.getConfigFrom fsC2w cfg0 "/a/index.js"
        [".foorc"] none).state.resolvedPath =
      (if primaryCond (midState fsC2w cfg0 none) = true then some "/a/.foorc"
       else (midState fsC2w cfg0 none).resolvedPath) ∧
    (PublicConfig.getConfigFrom fsC2w cfg0 "/a/index.js"
        [".foorc"] none).state.includedFiles =
      (if primaryCond (midState fsC2w cfg0 none) = true
       then (midState fsC2w cfg0 none).includedFiles
       else setAdd (midState fsC2w cfg0 none).includedFiles "/a/.foorc") :=
  getConfigFrom_records_found_file fsC2w cfg0 "/a/index.js" [".foorc"] none
    "/a/.foorc" (JSValue.num 5) (fun _ h => nomatch h) rfl rfl

/-- C3 (amended): `getPackage()` is memoized once it has resolved to a
truthy (in particular, non-null) package descriptor: a subsequent call
returns the same value, leaves the state untouched, and performs no
`loadConfig` search. -/
theorem getPackage_memoized_when_truthy (fs : FS) (s : Config) (v : JSValue)
    (h1 : (PublicConfig.getPackage fs s).ret = some v)
    (h2 : v.truthy = true) :
    PublicConfig.getPackage fs (PublicConfig.getPackage fs s).state =
      ⟨some v, (PublicConfig.getPackage fs s).state, []⟩ := by
  have hpkg : (PublicConfig.getPackage fs s).state.pkg = some v := by
    rw [getPackage_state_pkg fs s, h1]
    rfl
  conv_lhs => rw [PublicConfig.getPackage]
  rw [hpkg]
  dsimp only
  rw [h2]
  simp [hpkg]

/-- C3 counterexample: with no `package.json` anywhere, the first
`getPackage()` resolves (to `null`, cached as a falsy value), yet the second
call runs the upward `loadConfig` search again — its `loadConfig` trace is
nonempty — because `if (this.#config.pkg)` treats the cached `null` as
absent. -/
theorem getPackage_null_not_memoized :
    (PublicConfig.getPackage [] cfg0).ret = none ∧
    (PublicConfig.getPackage [] cfg0).calls =
      [("/a/index.js", ["package.json"])] ∧
    (PublicConfig.getPackage [] cfg0).state.pkg = some JSValue.null ∧
    (PublicConfig.getPackage [] (PublicConfig.getPackage [] cfg0).state).calls =
      [("/a/index.js", ["package.json"])] ∧
    ([("/a/index.js", ["package.json"])] :
      List (String × List String)) ≠ [] :=
  ⟨rfl, rfl, rfl, rfl, fun h => List.noConfusion h⟩

/-- C3 witness: after a first `getPackage()` that finds
`{"name": "a"}`, the second call returns it from the cache with no
`loadConfig` search. -/
theorem getPackage_memoized_when_truthy_witness :
    PublicConfig.getPackage fsC3 (PublicConfig.getPackage fsC3 cfg0).state =
      ⟨some (JSValue.obj [("name", JSValue.str "a")]),
        (PublicConfig.getPackage fsC3 cfg0).state, []⟩ :=
  getPackage_memoized_when_truthy fsC3 cfg0
    (JSValue.obj [("name", JSValue.str "a")]) rfl rfl

/-- C7 (amended): a call without a `packageKey` option whose upward search
finds no matching candidate returns `null` and leaves the Config Result
exactly unchanged (in particular `resolvedPath` is not set and nothing is
added to `includedFiles`); its only `loadConfig` invocation is the failed
candidate search. -/
theorem getConfigFrom_not_found_null_unchanged
    (fs : FS) (s : Config) (sp : String) (filePaths : List String)
    (opts : Option GetConfigOptions)
    (hpk : packageKeyOf opts = none)
    (hl : loadConfig fs sp filePaths = none) :
    PublicConfig.getConfigFrom fs s sp filePaths opts =
      ⟨none, s, [(sp, filePaths)]⟩ := by
  unfold PublicConfig.getConfigFrom
  rw [hpk]
  dsimp only
  simp [loadAndRecord, hl]

/-- C7 counterexample: a call with `packageKey: "foo"` whose short-circuit
misses (the descriptor has no truthy `"foo"`) and whose candidate search
finds nothing returns `null` — but the Config Result is *not* unchanged: the
embedded `getPackage()` fetch cached the descriptor in `pkg` and set
`resolvedPath` to the `package.json` it found. -/
theorem getConfigFrom_packageKey_miss_mutates_counterexample :
    (PublicConfig.getConfigFrom fsC7 cfg0 "/a/index.js" ["missing.config"]
      (some { packageKey := some "foo" })).ret = none ∧
    cfg0.resolvedPath = none ∧
    (PublicConfig.getConfigFrom fsC7 cfg0 "/a/index.js" ["missing.config"]
      (some { packageKey := some "foo" })).state.resolvedPath =
      some "/a/package.json" ∧
    (PublicConfig.getConfigFrom fsC7 cfg0 "/a/index.js" ["missing.config"]
      (some { packageKey := some "foo" })).state.pkg =
      some (JSValue.obj [("bar", JSValue.num 1)]) ∧
    some "/a/package.json" ≠ (none : Option String) :=
  ⟨rfl, rfl, rfl, rfl, fun h => Option.noConfusion h⟩

/-- C7 witness: a call on an empty filesystem without options returns `null`
and leaves the concrete initial Config Result unchanged. -/
theorem getConfigFrom_not_found_null_unchanged_witness :
    PublicConfig.getConfigFrom [] cfg0 "/a/index.js" ["nope.config"] none =
      ⟨none, cfg0, [("/a/index.js", ["nope.config"])]⟩ :=
  getConfigFrom_not_found_null_unchanged [] cfg0 "/a/index.js"
    ["nope.config"] none rfl rfl
